import Mathlib

/-!
Verification of the tgcalls AudioStreamingPart core.

Shallow embedding of
`TMessagesProj/jni/voip/tgcalls/group/AudioStreamingPart.cpp`:
the channel-update binary parser, the in-memory byte-buffer I/O adapter,
the per-part decode state machine and the owning facade.

Machine integers of the C++ are embedded as `Nat`/`Int`: a value read as a
32-bit word is reduced `% 2^32`, and the signed view used for the
`frameIndex`/`id` fields of a `ChannelUpdate` subtracts `2^32` above
`2^31`.  The external demux/decode pipeline
(`AudioStreamingPartInternal`) is out of scope of the file and is
modelled at its interface boundary: the parsed channel-update list, the
reported duration, the endpoint mapping, and each tick's
`ReadPcmResult` plus decoded PCM buffer enter the model as inputs.
-/

/-- Little-endian 32-bit word assembled from four bytes, as `memcpy` into an
`int32_t` does on the target platform; reduced modulo `2^32`. -/
def leWord32 (b0 b1 b2 b3 : Nat) : Nat :=
  (b0 + b1 * 256 + b2 * 65536 + b3 * 16777216) % 2 ^ 32

/-- The signed (two's-complement) reading of a 32-bit word. -/
def toInt32 (w : Nat) : Int :=
  if w % 2 ^ 32 < 2 ^ 31 then ((w % 2 ^ 32 : Nat) : Int)
  else ((w % 2 ^ 32 : Nat) : Int) - 2 ^ 32

/-- The 32-bit word laid out at `offset` in the byte list. -/
def word32At (data : List Nat) (offset : Nat) : Nat :=
  leWord32 (data.getD offset 0) (data.getD (offset + 1) 0)
    (data.getD (offset + 2) 0) (data.getD (offset + 3) 0)

/-- Embeds `readInt32(data, offset)`: if fewer than 4 bytes remain the read
fails (`absl::nullopt`), otherwise it returns the 32-bit word at `offset`
together with the advanced cursor (the C++ advances `offset` by reference). -/
def readInt32 (data : List Nat) (offset : Nat) : Option (Nat × Nat) :=
  if offset + 4 > data.length then none
  else some (word32At data offset, offset + 4)

/-- Embeds `struct ChannelUpdate`.  `frameIndex` and `id` are C++ `int`
(signed 32-bit), `ssrc` is `uint32_t` kept as a `Nat`. -/
structure ChannelUpdate where
  frameIndex : Int
  id : Int
  ssrc : Nat
deriving DecidableEq

/-- The record loop of `parseChannelUpdates`: reads `count` repetitions of
`[frameIndex][channelId][ssrc]`, failing (and discarding everything) as soon
as one 32-bit read fails. -/
def parseUpdatesLoop (data : List Nat) : Nat → Nat → Option (List ChannelUpdate)
  | _, 0 => some []
  | offset, n + 1 =>
    match readInt32 data offset with
    | none => none
    | some (w1, o1) =>
      match readInt32 data o1 with
      | none => none
      | some (w2, o2) =>
        match readInt32 data o2 with
        | none => none
        | some (w3, o3) =>
          match parseUpdatesLoop data o3 n with
          | none => none
          | some rest =>
            some ({ frameIndex := toInt32 w1, id := toInt32 w2, ssrc := w3 % 2 ^ 32 } :: rest)

/-- Embeds `parseChannelUpdates(data, offset)`: reads `[channelCount][count]`
then `count` update records; any failed read yields the empty list.  The
C++ loop bound `i < count.value()` compares against the unsigned word, so the
loop runs `count` times unless a read fails first. -/
def parseChannelUpdates (data : List Nat) (offset : Nat) : List ChannelUpdate :=
  match readInt32 data offset with
  | none => []
  | some (_, o1) =>
    match readInt32 data o1 with
    | none => []
    | some (count, o2) =>
      match parseUpdatesLoop data o2 count with
      | none => []
      | some result => result

/-- FFmpeg's end-of-file error code, `FFERRTAG('E','O','F',' ')`.
Modelled from the spec: the adapter returns "an end-of-stream signal (not
zero)" from the external libavformat interface; the numeric value is the
one the included FFmpeg headers define. -/
def AVERROR_EOF : Int := -541478725

/-- Embeds the state of `AVIOContextImpl`: the owned byte buffer and the
read cursor (`_fileReadPosition`, a C++ `int`). -/
structure AVIOContextImpl where
  fileData : List Nat
  fileReadPosition : Int
deriving DecidableEq

/-- Embeds `AVIOContextImpl::read`: copies
`min(bufferSize, size - position)` bytes (clamped at zero) and advances the
cursor, or returns `AVERROR_EOF` leaving the cursor alone when no byte can
be produced.  Returns the result code together with the updated adapter. -/
def AVIOContextImpl.read (inst : AVIOContextImpl) (bufferSize : Int) :
    Int × AVIOContextImpl :=
  let bytesToRead0 : Int := min bufferSize ((inst.fileData.length : Int) - inst.fileReadPosition)
  let bytesToRead : Int := if bytesToRead0 < 0 then 0 else bytesToRead0
  if 0 < bytesToRead then
    (bytesToRead, { inst with fileReadPosition := inst.fileReadPosition + bytesToRead })
  else
    (AVERROR_EOF, inst)

/-- Embeds `AVIOContextImpl::seek`: whence `0x10000` (`AVSEEK_SIZE`) reports
the total size without moving the cursor; otherwise the offset is clamped to
`[0, size]` and becomes the new cursor. -/
def AVIOContextImpl.seek (inst : AVIOContextImpl) (offset : Int) (whence : Int) :
    Int × AVIOContextImpl :=
  if whence = 65536 then
    ((inst.fileData.length : Int), inst)
  else
    let seekOffset0 : Int := min offset (inst.fileData.length : Int)
    let seekOffset : Int := if seekOffset0 < 0 then 0 else seekOffset0
    (seekOffset, { inst with fileReadPosition := seekOffset })

/-- Embeds `struct ChannelMapping`: one active binding of an `ssrc` to a
decoder channel index. -/
structure ChannelMapping where
  ssrc : Nat
  channelIndex : Int
deriving DecidableEq

/-- The backward scan of `updateCurrentMapping`, expressed on the reversed
table (the C++ walks indices from the last entry down to the first).  The
returned flag records an early return on an identical binding; otherwise
every entry sharing the `ssrc` or the `channelIndex` has been erased. -/
def scanRev (ssrc : Nat) (channelIndex : Int) :
    List ChannelMapping → List ChannelMapping × Bool
  | [] => ([], false)
  | e :: rest =>
    if e.ssrc = ssrc ∧ e.channelIndex = channelIndex then (e :: rest, true)
    else if e.ssrc = ssrc ∨ e.channelIndex = channelIndex then
      scanRev ssrc channelIndex rest
    else
      let p := scanRev ssrc channelIndex rest
      (e :: p.1, p.2)

/-- Embeds `AudioStreamingPartState::updateCurrentMapping`: scan the table
from the end; stop on an identical binding, erase conflicting bindings, and
append the new binding at the end when no identical one was found. -/
def updateCurrentMapping (m : List ChannelMapping) (ssrc : Nat) (channelIndex : Int) :
    List ChannelMapping :=
  let p := scanRev ssrc channelIndex m.reverse
  if p.2 then p.1.reverse
  else ({ ssrc := ssrc, channelIndex := channelIndex } :: p.1).reverse

/-- Embeds `AudioStreamingPartState::getCurrentMappedChannelIndex`: first
entry of the table carrying `ssrc`, if any. -/
def getCurrentMappedChannelIndex (m : List ChannelMapping) (ssrc : Nat) : Option Int :=
  match m with
  | [] => none
  | e :: rest =>
    if e.ssrc = ssrc then some e.channelIndex
    else getCurrentMappedChannelIndex rest ssrc

/-- The one-to-one invariant of the active mapping table: no two entries
share an `ssrc` and no two entries share a `channelIndex`. -/
def oneToOne (m : List ChannelMapping) : Prop :=
  m.Pairwise (fun a b => a.ssrc ≠ b.ssrc ∧ a.channelIndex ≠ b.channelIndex)

instance (m : List ChannelMapping) : Decidable (oneToOne m) := by
  unfold oneToOne
  infer_instance

/-- Ordered duplicate-free insertion, embedding `std::set<uint32_t>::insert`
on the ascending element list. -/
def insertSorted (x : Nat) : List Nat → List Nat
  | [] => [x]
  | y :: ys =>
    if x < y then x :: y :: ys
    else if x = y then y :: ys
    else y :: insertSorted x ys

/-- Embeds `struct ReadPcmResult`, the external pipeline's per-tick report. -/
structure ReadPcmResult where
  numSamples : Int
  numChannels : Int
deriving DecidableEq

/-- Embeds `AudioStreamingPart::StreamingPartChannel`: one per-SSRC output
chunk (16-bit samples kept as `Int`). -/
structure StreamingPartChannel where
  ssrc : Nat
  pcmData : List Int
  numSamples : Int
deriving DecidableEq

/-- Embeds the fields of `AudioStreamingPartState`.  `channelUpdates`,
`remainingMilliseconds`' seed and `endpointMapping` stand for the values the
external `AudioStreamingPartInternal` reports for the part's bytes. -/
structure AudioStreamingPartState where
  isSingleChannel : Bool
  channelUpdates : List ChannelUpdate
  endpointMapping : List (String × Int)
  allSsrcs : List Nat
  currentChannelMapping : List ChannelMapping
  frameIndex : Int
  remainingMilliseconds : Int
  didReadToEnd : Bool
deriving DecidableEq

/-- Embeds the `AudioStreamingPartState` constructor: with zero parsed
updates in multiplexed mode the part is terminal at once (duration stays 0
and `allSsrcs` stays empty, the constructor returns early); otherwise the
duration is seeded and `allSsrcs` collects the distinct update SSRCs in
ascending order. -/
def mkAudioStreamingPartState (updates : List ChannelUpdate) (durationMs : Int)
    (endpointMapping : List (String × Int)) (isSingleChannel : Bool) :
    AudioStreamingPartState :=
  if updates.length = 0 ∧ isSingleChannel = false then
    { isSingleChannel := isSingleChannel, channelUpdates := updates,
      endpointMapping := endpointMapping, allSsrcs := [],
      currentChannelMapping := [], frameIndex := 0,
      remainingMilliseconds := 0, didReadToEnd := true }
  else
    { isSingleChannel := isSingleChannel, channelUpdates := updates,
      endpointMapping := endpointMapping,
      allSsrcs := updates.foldl (fun s u => insertSorted u.ssrc s) [],
      currentChannelMapping := [], frameIndex := 0,
      remainingMilliseconds := durationMs, didReadToEnd := false }

/-- The per-tick update loop at the top of `get10msPerChannel`: every parsed
update whose `frameIndex` equals the current frame is applied to the active
table, in list order.  The loop is not guarded by the mode flag. -/
def applyDueUpdates (updates : List ChannelUpdate) (frameIndex : Int)
    (m : List ChannelMapping) : List ChannelMapping :=
  updates.foldl
    (fun acc u => if u.frameIndex = frameIndex then updateCurrentMapping acc u.ssrc u.id else acc)
    m

/-- Models the unchecked C++ access `_pcm10ms[idx]`.  In bounds it reads the
buffer; out of bounds the C++ behaviour is undefined, and the model returns
0 while `get10msAccessedIndices` exposes the index set for bounds claims. -/
def pcmGet (pcm : List Int) (idx : Int) : Int :=
  if 0 ≤ idx ∧ idx < (pcm.length : Int) then pcm.getD idx.toNat 0 else 0

/-- The index sequence of the de-interleave loop
`for j < numSamples: pcm[sourceChannelIndex + j * numChannels]`. -/
def deinterleaveIndices (sourceChannelIndex : Int) (numSamples : Int)
    (numChannels : Int) : List Int :=
  (List.range numSamples.toNat).map (fun j => sourceChannelIndex + (j : Int) * numChannels)

/-- Embeds `AudioStreamingPartState::get10msPerChannel`.  The external
decode step `readPcm` is modelled at its interface: the tick receives the
`ReadPcmResult` the pipeline reports and the interleaved PCM buffer it
filled.  Returns the per-SSRC output together with the successor state. -/
def AudioStreamingPartState.get10msPerChannel (st : AudioStreamingPartState)
    (readResult : ReadPcmResult) (pcm10ms : List Int) :
    List StreamingPartChannel × AudioStreamingPartState :=
  if st.didReadToEnd then ([], st)
  else
    let mapping := applyDueUpdates st.channelUpdates st.frameIndex st.currentChannelMapping
    let st1 := { st with currentChannelMapping := mapping }
    if readResult.numSamples ≤ 0 then ([], { st1 with didReadToEnd := true })
    else
      let resultChannels : List StreamingPartChannel :=
        if st.isSingleChannel then
          (List.range readResult.numChannels.toNat).map (fun i =>
            { ssrc := i + 1,
              pcmData := (deinterleaveIndices (i : Int) readResult.numSamples
                readResult.numChannels).map (pcmGet pcm10ms),
              numSamples := readResult.numSamples })
        else
          st.allSsrcs.map (fun ssrc =>
            match getCurrentMappedChannelIndex mapping ssrc with
            | some sourceChannelIndex =>
              { ssrc := ssrc,
                pcmData := (deinterleaveIndices sourceChannelIndex readResult.numSamples
                  readResult.numChannels).map (pcmGet pcm10ms),
                numSamples := readResult.numSamples }
            | none =>
              { ssrc := ssrc,
                pcmData := List.replicate readResult.numSamples.toNat 0,
                numSamples := readResult.numSamples })
      (resultChannels,
        { st1 with
          remainingMilliseconds :=
            if st1.remainingMilliseconds - 10 < 0 then 0 else st1.remainingMilliseconds - 10,
          frameIndex := st1.frameIndex + 1 })

/-- The positions of the decoded PCM buffer the tick dereferences: empty on
the two early-return paths, the de-interleave index sets otherwise.  The
C++ performs these accesses with unchecked `operator[]`. -/
def get10msAccessedIndices (st : AudioStreamingPartState) (readResult : ReadPcmResult) :
    List Int :=
  if st.didReadToEnd then []
  else if readResult.numSamples ≤ 0 then []
  else if st.isSingleChannel then
    (List.range readResult.numChannels.toNat).flatMap (fun i =>
      deinterleaveIndices (i : Int) readResult.numSamples readResult.numChannels)
  else
    let mapping := applyDueUpdates st.channelUpdates st.frameIndex st.currentChannelMapping
    st.allSsrcs.flatMap (fun ssrc =>
      match getCurrentMappedChannelIndex mapping ssrc with
      | some sourceChannelIndex =>
        deinterleaveIndices sourceChannelIndex readResult.numSamples readResult.numChannels
      | none => [])

/-- Runs a sequence of ticks, feeding each tick's external decode report and
PCM buffer; returns the final state. -/
def runTicksState (st : AudioStreamingPartState) :
    List (ReadPcmResult × List Int) → AudioStreamingPartState
  | [] => st
  | t :: ts => runTicksState (st.get10msPerChannel t.1 t.2).2 ts

/-- Embeds the `AudioStreamingPart` facade: an optionally owned state. -/
structure AudioStreamingPart where
  state : Option AudioStreamingPartState
deriving DecidableEq

/-- Embeds the `AudioStreamingPart` constructor: an empty blob leaves the
facade stateless; otherwise the state machine is built from what the
external pipeline reports for the bytes (updates, duration, endpoints). -/
def mkAudioStreamingPart (data : List Nat) (updates : List ChannelUpdate)
    (durationMs : Int) (endpointMapping : List (String × Int))
    (isSingleChannel : Bool) : AudioStreamingPart :=
  if data.isEmpty then { state := none }
  else { state := some (mkAudioStreamingPartState updates durationMs endpointMapping isSingleChannel) }

/-- Embeds `AudioStreamingPart::getEndpointMapping`. -/
def AudioStreamingPart.getEndpointMapping (p : AudioStreamingPart) : List (String × Int) :=
  match p.state with
  | none => []
  | some st => st.endpointMapping

/-- Embeds `AudioStreamingPart::getRemainingMilliseconds`. -/
def AudioStreamingPart.getRemainingMilliseconds (p : AudioStreamingPart) : Int :=
  match p.state with
  | none => 0
  | some st => st.remainingMilliseconds

/-- Embeds `AudioStreamingPart::get10msPerChannel`: forwards to the owned
state when present, else returns the empty result. -/
def AudioStreamingPart.get10msPerChannel (p : AudioStreamingPart)
    (readResult : ReadPcmResult) (pcm10ms : List Int) :
    List StreamingPartChannel × AudioStreamingPart :=
  match p.state with
  | none => ([], p)
  | some st =>
    let r := st.get10msPerChannel readResult pcm10ms
    (r.1, { state := some r.2 })

theorem readInt32_of_lt {data : List Nat} {offset : Nat} (h : data.length < offset + 4) :
    readInt32 data offset = none := by
  unfold readInt32
  rw [if_pos (by omega)]

theorem readInt32_of_le {data : List Nat} {offset : Nat} (h : offset + 4 ≤ data.length) :
    readInt32 data offset = some (word32At data offset, offset + 4) := by
  unfold readInt32
  rw [if_neg (by omega)]

theorem readInt32_bounds {data : List Nat} {offset w o2 : Nat}
    (h : readInt32 data offset = some (w, o2)) :
    offset + 4 ≤ data.length ∧ o2 = offset + 4 := by
  unfold readInt32 at h
  split at h
  · exact absurd h (by simp)
  · rename_i hc
    simp only [Option.some.injEq, Prod.mk.injEq] at h
    exact ⟨by omega, h.2.symm⟩

theorem parseUpdatesLoop_spec (data : List Nat) :
    ∀ (n offset : Nat), offset ≤ data.length →
      (offset + 12 * n ≤ data.length →
        ∃ l, parseUpdatesLoop data offset n = some l ∧ l.length = n) ∧
      (data.length < offset + 12 * n → parseUpdatesLoop data offset n = none) := by
  intro n
  induction n with
  | zero =>
    intro offset hoff
    refine ⟨fun _ => ⟨[], rfl, rfl⟩, fun h => absurd h (by omega)⟩
  | succ n ih =>
    intro offset hoff
    by_cases h4 : offset + 4 ≤ data.length
    · by_cases h8 : offset + 8 ≤ data.length
      · by_cases h12 : offset + 12 ≤ data.length
        · have hstep : parseUpdatesLoop data offset (n + 1) =
              match parseUpdatesLoop data (offset + 12) n with
              | none => none
              | some rest =>
                some ({ frameIndex := toInt32 (word32At data offset),
                        id := toInt32 (word32At data (offset + 4)),
                        ssrc := word32At data (offset + 8) % 2 ^ 32 } :: rest) := by
            simp only [parseUpdatesLoop, readInt32_of_le h4,
              readInt32_of_le (show offset + 4 + 4 ≤ data.length by omega),
              readInt32_of_le (show offset + 4 + 4 + 4 ≤ data.length by omega)]
          constructor
          · intro hall
            obtain ⟨l, hl, hlen⟩ := (ih (offset + 12) h12).1 (by omega)
            refine ⟨(⟨toInt32 (word32At data offset), toInt32 (word32At data (offset + 4)),
                word32At data (offset + 8) % 2 ^ 32⟩ : ChannelUpdate) :: l, ?_, ?_⟩
            · rw [hstep, hl]
            · simp [hlen]
          · intro hlt
            have hnone := (ih (offset + 12) h12).2 (by omega)
            rw [hstep, hnone]
        · have hstep : parseUpdatesLoop data offset (n + 1) = none := by
            simp only [parseUpdatesLoop, readInt32_of_le h4,
              readInt32_of_le (show offset + 4 + 4 ≤ data.length by omega),
              readInt32_of_lt (show data.length < offset + 4 + 4 + 4 by omega)]
          exact ⟨fun h => absurd h (by omega), fun _ => hstep⟩
      · have hstep : parseUpdatesLoop data offset (n + 1) = none := by
          simp only [parseUpdatesLoop, readInt32_of_le h4,
            readInt32_of_lt (show data.length < offset + 4 + 4 by omega)]
        exact ⟨fun h => absurd h (by omega), fun _ => hstep⟩
    · have hstep : parseUpdatesLoop data offset (n + 1) = none := by
        simp only [parseUpdatesLoop, readInt32_of_lt (show data.length < offset + 4 by omega)]
      exact ⟨fun h => absurd h (by omega), fun _ => hstep⟩

/-- C6: the channel-update parser is deterministic and total (it is a Lean
function, terminating by structural recursion on the record count, so no
invocation loops or faults); every successful 32-bit read stays within the
buffer and advances the cursor by exactly 4; a header truncated before the
two leading words yields the empty sequence; and once the header is
readable, a record section shorter than the 12 bytes per announced record
yields the empty sequence, never a partial result, while a long-enough
buffer yields exactly the announced number of records. -/
theorem parseChannelUpdates_total_and_truncation (data : List Nat) (offset : Nat) :
    (data.length < offset + 8 → parseChannelUpdates data offset = []) ∧
    (∀ w o2, readInt32 data offset = some (w, o2) →
      offset + 4 ≤ data.length ∧ o2 = offset + 4) ∧
    (offset + 8 ≤ data.length →
      (offset + 8 + 12 * word32At data (offset + 4) ≤ data.length →
        (parseChannelUpdates data offset).length = word32At data (offset + 4)) ∧
      (data.length < offset + 8 + 12 * word32At data (offset + 4) →
        parseChannelUpdates data offset = [])) := by
  refine ⟨?_, ?_, ?_⟩
  · intro hshort
    by_cases h4 : offset + 4 ≤ data.length
    · simp only [parseChannelUpdates, readInt32_of_le h4,
        readInt32_of_lt (show data.length < offset + 4 + 4 by omega)]
    · simp only [parseChannelUpdates, readInt32_of_lt (show data.length < offset + 4 by omega)]
  · intro w o2 h
    exact readInt32_bounds h
  · intro h8
    have hread1 := readInt32_of_le (show offset + 4 ≤ data.length by omega)
    have hread2 := readInt32_of_le (show offset + 4 + 4 ≤ data.length by omega)
    have hloop := parseUpdatesLoop_spec data (word32At data (offset + 4)) (offset + 8)
      (by omega)
    constructor
    · intro hall
      obtain ⟨l, hl, hlen⟩ := hloop.1 (by omega)
      rw [show offset + 8 = offset + 4 + 4 from by omega] at hl
      simp only [parseChannelUpdates, hread1, hread2, hl]
      exact hlen
    · intro hlt
      have hnone := hloop.2 (by omega)
      rw [show offset + 8 = offset + 4 + 4 from by omega] at hnone
      simp only [parseChannelUpdates, hread1, hread2, hnone]

theorem parseChannelUpdates_total_and_truncation_witness :
    ((parseChannelUpdates
        [1, 0, 0, 0, 1, 0, 0, 0, 5, 0, 0, 0, 2, 0, 0, 0, 7, 0, 0, 0] 0).length =
      word32At [1, 0, 0, 0, 1, 0, 0, 0, 5, 0, 0, 0, 2, 0, 0, 0, 7, 0, 0, 0] 4) ∧
    parseChannelUpdates [1, 0, 0, 0, 1, 0, 0, 0, 5, 0, 0, 0, 2, 0, 0, 0, 7, 0, 0] 0 = [] ∧
    parseChannelUpdates [1, 0, 0, 0, 1, 0, 0] 0 = [] := by
  refine ⟨?_, ?_, ?_⟩
  · exact ((parseChannelUpdates_total_and_truncation
      [1, 0, 0, 0, 1, 0, 0, 0, 5, 0, 0, 0, 2, 0, 0, 0, 7, 0, 0, 0] 0).2.2
      (by decide)).1 (by decide)
  · exact ((parseChannelUpdates_total_and_truncation
      [1, 0, 0, 0, 1, 0, 0, 0, 5, 0, 0, 0, 2, 0, 0, 0, 7, 0, 0] 0).2.2
      (by decide)).2 (by decide)
  · exact (parseChannelUpdates_total_and_truncation [1, 0, 0, 0, 1, 0, 0] 0).1 (by decide)

/-- C10: the byte-buffer adapter's read returns `AVERROR_EOF` and leaves the
cursor (and buffer) unchanged whenever `min(maxBytes, remaining)` is not
positive — including `maxBytes = 0` with unread bytes remaining — and
otherwise returns exactly that positive minimum, advancing the cursor by
exactly the returned count. -/
theorem AVIOContextImpl_read_spec (inst : AVIOContextImpl) (bufferSize : Int) :
    (min bufferSize ((inst.fileData.length : Int) - inst.fileReadPosition) ≤ 0 →
      inst.read bufferSize = (AVERROR_EOF, inst)) ∧
    (0 < min bufferSize ((inst.fileData.length : Int) - inst.fileReadPosition) →
      (inst.read bufferSize).1 =
          min bufferSize ((inst.fileData.length : Int) - inst.fileReadPosition) ∧
        0 < (inst.read bufferSize).1 ∧
        (inst.read bufferSize).2.fileReadPosition =
          inst.fileReadPosition + (inst.read bufferSize).1 ∧
        (inst.read bufferSize).2.fileData = inst.fileData) := by
  constructor
  · intro h
    unfold AVIOContextImpl.read
    dsimp only
    rw [if_neg (show ¬ 0 <
      (if min bufferSize ((inst.fileData.length : Int) - inst.fileReadPosition) < 0 then (0 : Int)
       else min bufferSize ((inst.fileData.length : Int) - inst.fileReadPosition)) from by
        split_ifs <;> omega)]
  · intro h
    unfold AVIOContextImpl.read
    dsimp only
    rw [if_neg (show ¬ min bufferSize ((inst.fileData.length : Int) - inst.fileReadPosition) < 0
      from by omega)]
    rw [if_pos h]
    exact ⟨rfl, h, rfl, rfl⟩

theorem AVIOContextImpl_read_spec_witness :
    AVIOContextImpl.read { fileData := [1, 2, 3], fileReadPosition := 0 } 0 =
      (AVERROR_EOF, { fileData := [1, 2, 3], fileReadPosition := 0 }) ∧
    (AVIOContextImpl.read { fileData := [1, 2, 3], fileReadPosition := 1 } 4).1 = 2 := by
  constructor
  · exact (AVIOContextImpl_read_spec { fileData := [1, 2, 3], fileReadPosition := 0 } 0).1
      (by decide)
  · have h := ((AVIOContextImpl_read_spec { fileData := [1, 2, 3], fileReadPosition := 1 } 4).2
      (by decide)).1
    rw [h]
    decide

theorem scanRev_cons_identical {s : Nat} {c : Int} {e : ChannelMapping}
    (rest : List ChannelMapping) (h : e.ssrc = s ∧ e.channelIndex = c) :
    scanRev s c (e :: rest) = (e :: rest, true) := by
  simp [scanRev, h]

theorem scanRev_cons_conflict {s : Nat} {c : Int} {e : ChannelMapping}
    (rest : List ChannelMapping) (h1 : ¬(e.ssrc = s ∧ e.channelIndex = c))
    (h2 : e.ssrc = s ∨ e.channelIndex = c) :
    scanRev s c (e :: rest) = scanRev s c rest := by
  simp only [scanRev]
  rw [if_neg h1, if_pos h2]

theorem scanRev_cons_keep {s : Nat} {c : Int} {e : ChannelMapping}
    (rest : List ChannelMapping) (h2 : ¬(e.ssrc = s ∨ e.channelIndex = c)) :
    scanRev s c (e :: rest) =
      (e :: (scanRev s c rest).1, (scanRev s c rest).2) := by
  have h1 : ¬(e.ssrc = s ∧ e.channelIndex = c) := fun h => h2 (Or.inl h.1)
  simp only [scanRev]
  rw [if_neg h1, if_neg h2]

theorem scanRev_fst_sublist (s : Nat) (c : Int) (l : List ChannelMapping) :
    (scanRev s c l).1.Sublist l := by
  induction l with
  | nil => simp [scanRev]
  | cons e rest ih =>
    by_cases h1 : e.ssrc = s ∧ e.channelIndex = c
    · rw [scanRev_cons_identical rest h1]
    · by_cases h2 : e.ssrc = s ∨ e.channelIndex = c
      · rw [scanRev_cons_conflict rest h1 h2]
        exact ih.trans (List.sublist_cons_self e rest)
      · rw [scanRev_cons_keep rest h2]
        exact ih.cons₂ e

theorem scanRev_eq_false_mem {s : Nat} {c : Int} {l : List ChannelMapping}
    (hf : (scanRev s c l).2 = false) :
    ∀ e ∈ (scanRev s c l).1, e.ssrc ≠ s ∧ e.channelIndex ≠ c := by
  induction l with
  | nil => simp [scanRev]
  | cons e rest ih =>
    by_cases h1 : e.ssrc = s ∧ e.channelIndex = c
    · rw [scanRev_cons_identical rest h1] at hf
      simp at hf
    · by_cases h2 : e.ssrc = s ∨ e.channelIndex = c
      · rw [scanRev_cons_conflict rest h1 h2] at hf ⊢
        exact ih hf
      · rw [scanRev_cons_keep rest h2] at hf ⊢
        intro x hx
        rcases List.mem_cons.mp hx with hx | hx
        · subst hx
          exact ⟨fun hs => h2 (Or.inl hs), fun hc => h2 (Or.inr hc)⟩
        · exact ih hf x hx

theorem scanRev_fst_fixed {s : Nat} {c : Int} {l : List ChannelMapping}
    (hf : (scanRev s c l).2 = true) :
    scanRev s c (scanRev s c l).1 = ((scanRev s c l).1, true) := by
  induction l with
  | nil => simp [scanRev] at hf
  | cons e rest ih =>
    by_cases h1 : e.ssrc = s ∧ e.channelIndex = c
    · rw [scanRev_cons_identical rest h1]
      exact scanRev_cons_identical rest h1
    · by_cases h2 : e.ssrc = s ∨ e.channelIndex = c
      · rw [scanRev_cons_conflict rest h1 h2] at hf ⊢
        exact ih hf
      · rw [scanRev_cons_keep rest h2] at hf ⊢
        rw [scanRev_cons_keep _ h2, ih hf]

theorem oneToOne_reverse {m : List ChannelMapping} (h : oneToOne m) :
    oneToOne m.reverse := by
  unfold oneToOne at h ⊢
  rw [List.pairwise_reverse]
  exact h.imp fun hab => ⟨hab.1.symm, hab.2.symm⟩

theorem updateCurrentMapping_oneToOne (m : List ChannelMapping) (s : Nat) (c : Int)
    (h : oneToOne m) : oneToOne (updateCurrentMapping m s c) := by
  unfold updateCurrentMapping
  have hrev : oneToOne m.reverse := oneToOne_reverse h
  have hsub : oneToOne (scanRev s c m.reverse).1 :=
    List.Pairwise.sublist (scanRev_fst_sublist s c m.reverse) hrev
  dsimp only
  by_cases hp : (scanRev s c m.reverse).2 = true
  · rw [if_pos hp]
    exact oneToOne_reverse hsub
  · rw [if_neg hp]
    refine oneToOne_reverse (List.Pairwise.cons ?_ hsub)
    intro e he
    have := scanRev_eq_false_mem (Bool.eq_false_iff.mpr hp) e he
    exact ⟨fun hs => this.1 hs.symm, fun hc => this.2 hc.symm⟩

/-- C3: starting from the empty table, any sequence of reassignments applied
through `updateCurrentMapping` leaves a one-to-one partial mapping: no two
active entries share an `ssrc` and no two share a `channelIndex`. -/
theorem updateCurrentMapping_foldl_oneToOne (updates : List (Nat × Int)) :
    oneToOne (updates.foldl (fun m u => updateCurrentMapping m u.1 u.2) []) := by
  have main : ∀ (us : List (Nat × Int)) (m : List ChannelMapping), oneToOne m →
      oneToOne (us.foldl (fun m u => updateCurrentMapping m u.1 u.2) m) := by
    intro us
    induction us with
    | nil => exact fun m h => h
    | cons u us ih =>
      intro m h
      exact ih _ (updateCurrentMapping_oneToOne m u.1 u.2 h)
  exact main updates [] List.Pairwise.nil

/-- C4: re-applying the same reassignment immediately is a no-op — the
second application finds the identical binding and returns without change,
for every starting table. -/
theorem updateCurrentMapping_idempotent (m : List ChannelMapping) (s : Nat) (c : Int) :
    updateCurrentMapping (updateCurrentMapping m s c) s c = updateCurrentMapping m s c := by
  unfold updateCurrentMapping
  dsimp only
  by_cases hp : (scanRev s c m.reverse).2 = true
  · rw [if_pos hp, List.reverse_reverse, scanRev_fst_fixed hp]
    rw [if_pos rfl]
  · rw [if_neg hp, List.reverse_reverse]
    rw [@scanRev_cons_identical s c ⟨s, c⟩ (scanRev s c m.reverse).1 ⟨rfl, rfl⟩]
    rw [if_pos rfl]

theorem mem_insertSorted (x a : Nat) (l : List Nat) :
    a ∈ insertSorted x l ↔ a = x ∨ a ∈ l := by
  induction l with
  | nil => simp [insertSorted]
  | cons y ys ih =>
    simp only [insertSorted]
    split_ifs with h1 h2
    · simp [List.mem_cons]
    · subst h2
      simp only [List.mem_cons]
      tauto
    · simp only [List.mem_cons, ih]
      tauto

theorem pairwise_insertSorted (x : Nat) (l : List Nat) (h : l.Pairwise (· < ·)) :
    (insertSorted x l).Pairwise (· < ·) := by
  induction l with
  | nil => simp [insertSorted]
  | cons y ys ih =>
    rw [List.pairwise_cons] at h
    simp only [insertSorted]
    split_ifs with h1 h2
    · refine List.Pairwise.cons ?_ (List.Pairwise.cons h.1 h.2)
      intro z hz
      rcases List.mem_cons.mp hz with hz | hz
      · subst hz
        exact h1
      · exact h1.trans (h.1 z hz)
    · exact List.Pairwise.cons h.1 h.2
    · refine List.Pairwise.cons ?_ (ih h.2)
      intro z hz
      rcases (mem_insertSorted x z ys).mp hz with hz | hz
      · subst hz
        omega
      · exact h.1 z hz

theorem pairwise_foldl_insertSorted (us : List ChannelUpdate) :
    ∀ acc : List Nat, acc.Pairwise (· < ·) →
      (us.foldl (fun s u => insertSorted u.ssrc s) acc).Pairwise (· < ·) := by
  induction us with
  | nil => exact fun acc h => h
  | cons u us ih =>
    intro acc h
    exact ih _ (pairwise_insertSorted u.ssrc acc h)

theorem mem_foldl_insertSorted (us : List ChannelUpdate) :
    ∀ (acc : List Nat) (a : Nat),
      a ∈ us.foldl (fun s u => insertSorted u.ssrc s) acc ↔
        a ∈ acc ∨ ∃ u ∈ us, u.ssrc = a := by
  induction us with
  | nil => simp
  | cons u us ih =>
    intro acc a
    rw [List.foldl_cons, ih, mem_insertSorted]
    constructor
    · rintro ((h | h) | ⟨v, hv, hva⟩)
      · exact Or.inr ⟨u, List.mem_cons_self u us, Eq.symm h⟩
      · exact Or.inl h
      · exact Or.inr ⟨v, List.mem_cons_of_mem u hv, hva⟩
    · rintro (h | ⟨v, hv, hva⟩)
      · exact Or.inl (Or.inr h)
      · rcases List.mem_cons.mp hv with hv | hv
        · subst hv
          exact Or.inl (Or.inl hva.symm)
        · exact Or.inr ⟨v, hv, hva⟩

theorem mkAudioStreamingPartState_allSsrcs_pairwise (updates : List ChannelUpdate)
    (durationMs : Int) (endpointMapping : List (String × Int)) (isSingleChannel : Bool) :
    ((mkAudioStreamingPartState updates durationMs endpointMapping
      isSingleChannel).allSsrcs).Pairwise (· < ·) := by
  unfold mkAudioStreamingPartState
  split_ifs
  · exact List.Pairwise.nil
  · exact pairwise_foldl_insertSorted updates [] List.Pairwise.nil

theorem mkAudioStreamingPartState_allSsrcs_mem (updates : List ChannelUpdate)
    (durationMs : Int) (endpointMapping : List (String × Int)) (isSingleChannel : Bool)
    (a : Nat) :
    a ∈ (mkAudioStreamingPartState updates durationMs endpointMapping
        isSingleChannel).allSsrcs ↔ ∃ u ∈ updates, u.ssrc = a := by
  unfold mkAudioStreamingPartState
  split_ifs with h
  · have : updates = [] := List.length_eq_zero.mp h.1
    subst this
    simp
  · rw [mem_foldl_insertSorted]
    simp

theorem get10msPerChannel_terminal (st : AudioStreamingPartState) (rr : ReadPcmResult)
    (pcm : List Int) (h : st.didReadToEnd = true) :
    st.get10msPerChannel rr pcm = ([], st) := by
  unfold AudioStreamingPartState.get10msPerChannel
  rw [if_pos h]

theorem get10msPerChannel_noSamples (st : AudioStreamingPartState) (rr : ReadPcmResult)
    (pcm : List Int) (h : st.didReadToEnd = false) (h2 : rr.numSamples ≤ 0) :
    st.get10msPerChannel rr pcm =
      ([], { st with
        currentChannelMapping :=
          applyDueUpdates st.channelUpdates st.frameIndex st.currentChannelMapping,
        didReadToEnd := true }) := by
  unfold AudioStreamingPartState.get10msPerChannel
  rw [if_neg (by simp [h]), if_pos h2]

theorem get10msPerChannel_success_snd (st : AudioStreamingPartState) (rr : ReadPcmResult)
    (pcm : List Int) (h : st.didReadToEnd = false) (h2 : 0 < rr.numSamples) :
    (st.get10msPerChannel rr pcm).2 =
      { st with
        currentChannelMapping :=
          applyDueUpdates st.channelUpdates st.frameIndex st.currentChannelMapping,
        remainingMilliseconds :=
          if st.remainingMilliseconds - 10 < 0 then 0 else st.remainingMilliseconds - 10,
        frameIndex := st.frameIndex + 1 } := by
  unfold AudioStreamingPartState.get10msPerChannel
  rw [if_neg (by simp [h]), if_neg (by omega)]

theorem get10msPerChannel_success_fst_multiplexed (st : AudioStreamingPartState)
    (rr : ReadPcmResult) (pcm : List Int) (hmode : st.isSingleChannel = false)
    (h : st.didReadToEnd = false) (h2 : 0 < rr.numSamples) :
    (st.get10msPerChannel rr pcm).1 =
      st.allSsrcs.map (fun ssrc =>
        match getCurrentMappedChannelIndex
            (applyDueUpdates st.channelUpdates st.frameIndex st.currentChannelMapping) ssrc with
        | some sourceChannelIndex =>
          { ssrc := ssrc,
            pcmData := (deinterleaveIndices sourceChannelIndex rr.numSamples
              rr.numChannels).map (pcmGet pcm),
            numSamples := rr.numSamples }
        | none =>
          { ssrc := ssrc,
            pcmData := List.replicate rr.numSamples.toNat 0,
            numSamples := rr.numSamples }) := by
  unfold AudioStreamingPartState.get10msPerChannel
  rw [if_neg (by simp [h]), if_neg (by omega)]
  dsimp only
  rw [if_neg (by simp [hmode])]

theorem get10msPerChannel_success_fst_single (st : AudioStreamingPartState)
    (rr : ReadPcmResult) (pcm : List Int) (hmode : st.isSingleChannel = true)
    (h : st.didReadToEnd = false) (h2 : 0 < rr.numSamples) :
    (st.get10msPerChannel rr pcm).1 =
      (List.range rr.numChannels.toNat).map (fun i =>
        { ssrc := i + 1,
          pcmData := (deinterleaveIndices (i : Int) rr.numSamples
            rr.numChannels).map (pcmGet pcm),
          numSamples := rr.numSamples }) := by
  unfold AudioStreamingPartState.get10msPerChannel
  rw [if_neg (by simp [h]), if_neg (by omega)]
  dsimp only
  rw [if_pos hmode]

theorem get10msPerChannel_snd_allSsrcs (st : AudioStreamingPartState)
    (rr : ReadPcmResult) (pcm : List Int) :
    ((st.get10msPerChannel rr pcm).2).allSsrcs = st.allSsrcs := by
  rcases Bool.eq_false_or_eq_true st.didReadToEnd with h | h
  · rw [get10msPerChannel_terminal st rr pcm h]
  · rcases le_or_lt rr.numSamples 0 with h2 | h2
    · rw [get10msPerChannel_noSamples st rr pcm h h2]
    · rw [get10msPerChannel_success_snd st rr pcm h h2]

theorem get10msPerChannel_snd_isSingleChannel (st : AudioStreamingPartState)
    (rr : ReadPcmResult) (pcm : List Int) :
    ((st.get10msPerChannel rr pcm).2).isSingleChannel = st.isSingleChannel := by
  rcases Bool.eq_false_or_eq_true st.didReadToEnd with h | h
  · rw [get10msPerChannel_terminal st rr pcm h]
  · rcases le_or_lt rr.numSamples 0 with h2 | h2
    · rw [get10msPerChannel_noSamples st rr pcm h h2]
    · rw [get10msPerChannel_success_snd st rr pcm h h2]

theorem runTicksState_allSsrcs (st : AudioStreamingPartState)
    (ticks : List (ReadPcmResult × List Int)) :
    (runTicksState st ticks).allSsrcs = st.allSsrcs := by
  induction ticks generalizing st with
  | nil => rfl
  | cons t ts ih =>
    rw [runTicksState, ih, get10msPerChannel_snd_allSsrcs]

theorem runTicksState_isSingleChannel (st : AudioStreamingPartState)
    (ticks : List (ReadPcmResult × List Int)) :
    (runTicksState st ticks).isSingleChannel = st.isSingleChannel := by
  induction ticks generalizing st with
  | nil => rfl
  | cons t ts ih =>
    rw [runTicksState, ih, get10msPerChannel_snd_isSingleChannel]

/-- C2: in multiplexed mode, any state reached from construction by any
sequence of ticks returns, on a successful tick, one output channel per
construction-time SSRC: the output SSRC sequence equals `allSsrcs`
(unchanged for the life of the part and independent of current bindings),
`allSsrcs` is strictly ascending, and its members are exactly the distinct
SSRCs of the parsed updates. -/
theorem get10msPerChannel_ssrc_order (updates : List ChannelUpdate) (durationMs : Int)
    (endpointMapping : List (String × Int)) (ticks : List (ReadPcmResult × List Int))
    (rr : ReadPcmResult) (pcm : List Int)
    (hlive : (runTicksState (mkAudioStreamingPartState updates durationMs endpointMapping false)
      ticks).didReadToEnd = false)
    (hsamples : 0 < rr.numSamples) :
    (((runTicksState (mkAudioStreamingPartState updates durationMs endpointMapping false)
        ticks).get10msPerChannel rr pcm).1.map StreamingPartChannel.ssrc =
      (mkAudioStreamingPartState updates durationMs endpointMapping false).allSsrcs) ∧
    ((mkAudioStreamingPartState updates durationMs endpointMapping
      false).allSsrcs).Pairwise (· < ·) ∧
    (∀ a, a ∈ (mkAudioStreamingPartState updates durationMs endpointMapping
        false).allSsrcs ↔ ∃ u ∈ updates, u.ssrc = a) := by
  set st0 := mkAudioStreamingPartState updates durationMs endpointMapping false with hst0
  set st := runTicksState st0 ticks with hst
  have hmode : st.isSingleChannel = false := by
    rw [hst, runTicksState_isSingleChannel, hst0]
    unfold mkAudioStreamingPartState
    split_ifs <;> rfl
  have hssrcs : st.allSsrcs = st0.allSsrcs := by
    rw [hst, runTicksState_allSsrcs]
  refine ⟨?_, mkAudioStreamingPartState_allSsrcs_pairwise updates durationMs endpointMapping
    false, fun a => mkAudioStreamingPartState_allSsrcs_mem updates durationMs endpointMapping
    false a⟩
  rw [get10msPerChannel_success_fst_multiplexed st rr pcm hmode hlive hsamples]
  rw [List.map_map, ← hssrcs]
  refine (List.map_congr_left ?_).trans (List.map_id st.allSsrcs)
  intro s _
  rcases hmap : getCurrentMappedChannelIndex
      (applyDueUpdates st.channelUpdates st.frameIndex st.currentChannelMapping) s with
    _ | ci <;> simp [hmap]

theorem get10msPerChannel_ssrc_order_witness :
    (((runTicksState (mkAudioStreamingPartState
        [{ frameIndex := 0, id := 0, ssrc := 100 }] 50 [] false)
        []).get10msPerChannel { numSamples := 1, numChannels := 1 } [7]).1.map
        StreamingPartChannel.ssrc =
      (mkAudioStreamingPartState
        [{ frameIndex := 0, id := 0, ssrc := 100 }] 50 [] false).allSsrcs) ∧
    ((mkAudioStreamingPartState
      [{ frameIndex := 0, id := 0, ssrc := 100 }] 50 [] false).allSsrcs).Pairwise (· < ·) ∧
    (100 ∈ (mkAudioStreamingPartState
        [{ frameIndex := 0, id := 0, ssrc := 100 }] 50 [] false).allSsrcs ↔
      ∃ u ∈ [({ frameIndex := 0, id := 0, ssrc := 100 } : ChannelUpdate)], u.ssrc = 100) := by
  have h := get10msPerChannel_ssrc_order [{ frameIndex := 0, id := 0, ssrc := 100 }] 50 [] []
    { numSamples := 1, numChannels := 1 } [7] (by decide) (by decide)
  exact ⟨h.1, h.2.1, h.2.2 100⟩

/-- C5: on a successful multiplexed tick, every output channel whose SSRC
has no active binding (after the tick's due updates were applied) carries
exactly the tick's per-channel sample count of samples, all zero; and every
unbound SSRC of `allSsrcs` contributes exactly such a silence channel. -/
theorem get10msPerChannel_silence (st : AudioStreamingPartState) (rr : ReadPcmResult)
    (pcm : List Int) (hmode : st.isSingleChannel = false)
    (hlive : st.didReadToEnd = false) (hsamples : 0 < rr.numSamples) :
    (∀ ch ∈ (st.get10msPerChannel rr pcm).1,
      getCurrentMappedChannelIndex
          (applyDueUpdates st.channelUpdates st.frameIndex st.currentChannelMapping)
          ch.ssrc = none →
        ch.pcmData = List.replicate rr.numSamples.toNat 0 ∧
        ch.numSamples = rr.numSamples) ∧
    (∀ s ∈ st.allSsrcs,
      getCurrentMappedChannelIndex
          (applyDueUpdates st.channelUpdates st.frameIndex st.currentChannelMapping)
          s = none →
        ({ ssrc := s, pcmData := List.replicate rr.numSamples.toNat 0,
           numSamples := rr.numSamples } : StreamingPartChannel) ∈
          (st.get10msPerChannel rr pcm).1) := by
  rw [get10msPerChannel_success_fst_multiplexed st rr pcm hmode hlive hsamples]
  constructor
  · intro ch hch
    obtain ⟨s, hs, hch⟩ := List.mem_map.mp hch
    subst hch
    rcases hmap : getCurrentMappedChannelIndex
        (applyDueUpdates st.channelUpdates st.frameIndex st.currentChannelMapping) s with
      _ | ci
    · intro _
      simp [hmap]
    · intro hnone
      simp [hmap] at hnone
  · intro s hs hnone
    refine List.mem_map.mpr ⟨s, hs, ?_⟩
    simp [hnone]

theorem get10msPerChannel_silence_witness :
    ({ ssrc := 100, pcmData := List.replicate (1 : Int).toNat 0,
       numSamples := 1 } : StreamingPartChannel) ∈
      (AudioStreamingPartState.get10msPerChannel
        { isSingleChannel := false, channelUpdates := [], endpointMapping := [],
          allSsrcs := [100], currentChannelMapping := [], frameIndex := 0,
          remainingMilliseconds := 50, didReadToEnd := false }
        { numSamples := 1, numChannels := 1 } [7]).1 ∧
    ({ ssrc := 100, pcmData := List.replicate (1 : Int).toNat 0,
       numSamples := 1 } : StreamingPartChannel).pcmData =
      List.replicate (1 : Int).toNat 0 ∧
    ({ ssrc := 100, pcmData := List.replicate (1 : Int).toNat 0,
       numSamples := 1 } : StreamingPartChannel).numSamples = 1 := by
  have h := get10msPerChannel_silence
    { isSingleChannel := false, channelUpdates := [], endpointMapping := [],
      allSsrcs := [100], currentChannelMapping := [], frameIndex := 0,
      remainingMilliseconds := 50, didReadToEnd := false }
    { numSamples := 1, numChannels := 1 } [7] rfl rfl (by decide)
  have hmem := h.2 100 (by decide) (by decide)
  exact ⟨hmem, h.1 _ hmem (by decide)⟩

/-- C7 counterexample: a single-channel part whose metadata carries a
channel update does NOT skip the apply-reassignments step — the tick at the
update's frame mutates the active mapping table, refuting "the active
mapping table is unchanged by every single-channel tick". -/
theorem get10msPerChannel_single_mapping_changes :
    ¬ (((mkAudioStreamingPartState [{ frameIndex := 0, id := 0, ssrc := 100 }] 50 []
          true).get10msPerChannel { numSamples := 1, numChannels := 1 } [7]).2.currentChannelMapping =
        (mkAudioStreamingPartState [{ frameIndex := 0, id := 0, ssrc := 100 }] 50 []
          true).currentChannelMapping) := by
  decide

/-- C7 amended: single-channel ticks do apply due channel updates to the
active mapping table (the apply step is unconditional in the code), but the
table is never consulted in single-channel mode: the output binding is the
fixed identity, channel `i` carrying SSRC `i + 1`. -/
theorem get10msPerChannel_single_channel_semantics (st : AudioStreamingPartState)
    (rr : ReadPcmResult) (pcm : List Int) (hmode : st.isSingleChannel = true)
    (hlive : st.didReadToEnd = false) (hsamples : 0 < rr.numSamples) :
    ((st.get10msPerChannel rr pcm).2).currentChannelMapping =
      applyDueUpdates st.channelUpdates st.frameIndex st.currentChannelMapping ∧
    (st.get10msPerChannel rr pcm).1.map StreamingPartChannel.ssrc =
      (List.range rr.numChannels.toNat).map (fun i => i + 1) := by
  constructor
  · rw [get10msPerChannel_success_snd st rr pcm hlive hsamples]
  · rw [get10msPerChannel_success_fst_single st rr pcm hmode hlive hsamples]
    rw [List.map_map]
    exact List.map_congr_left fun i _ => rfl

theorem get10msPerChannel_single_channel_semantics_witness :
    (((mkAudioStreamingPartState [{ frameIndex := 0, id := 0, ssrc := 100 }] 50 []
        true).get10msPerChannel { numSamples := 1, numChannels := 1 } [7]).2).currentChannelMapping =
      applyDueUpdates
        (mkAudioStreamingPartState [{ frameIndex := 0, id := 0, ssrc := 100 }] 50 []
          true).channelUpdates
        (mkAudioStreamingPartState [{ frameIndex := 0, id := 0, ssrc := 100 }] 50 []
          true).frameIndex
        (mkAudioStreamingPartState [{ frameIndex := 0, id := 0, ssrc := 100 }] 50 []
          true).currentChannelMapping ∧
    ((mkAudioStreamingPartState [{ frameIndex := 0, id := 0, ssrc := 100 }] 50 []
        true).get10msPerChannel { numSamples := 1, numChannels := 1 } [7]).1.map
        StreamingPartChannel.ssrc =
      (List.range (1 : Int).toNat).map (fun i => i + 1) :=
  get10msPerChannel_single_channel_semantics
    (mkAudioStreamingPartState [{ frameIndex := 0, id := 0, ssrc := 100 }] 50 [] true)
    { numSamples := 1, numChannels := 1 } [7] (by decide) (by decide) (by decide)

theorem get10msPerChannel_snd_remaining_nonneg (st : AudioStreamingPartState)
    (rr : ReadPcmResult) (pcm : List Int) (h : 0 ≤ st.remainingMilliseconds) :
    0 ≤ ((st.get10msPerChannel rr pcm).2).remainingMilliseconds := by
  rcases Bool.eq_false_or_eq_true st.didReadToEnd with hE | hE
  · rw [get10msPerChannel_terminal st rr pcm hE]
    exact h
  · rcases le_or_lt rr.numSamples 0 with h2 | h2
    · rw [get10msPerChannel_noSamples st rr pcm hE h2]
      exact h
    · rw [get10msPerChannel_success_snd st rr pcm hE h2]
      dsimp only
      split_ifs <;> omega

theorem get10msPerChannel_snd_remaining_le (st : AudioStreamingPartState)
    (rr : ReadPcmResult) (pcm : List Int) (h : 0 ≤ st.remainingMilliseconds) :
    ((st.get10msPerChannel rr pcm).2).remainingMilliseconds ≤ st.remainingMilliseconds := by
  rcases Bool.eq_false_or_eq_true st.didReadToEnd with hE | hE
  · rw [get10msPerChannel_terminal st rr pcm hE]
  · rcases le_or_lt rr.numSamples 0 with h2 | h2
    · rw [get10msPerChannel_noSamples st rr pcm hE h2]
    · rw [get10msPerChannel_success_snd st rr pcm hE h2]
      dsimp only
      split_ifs <;> omega

theorem runTicksState_remaining_nonneg (st : AudioStreamingPartState)
    (ticks : List (ReadPcmResult × List Int)) (h : 0 ≤ st.remainingMilliseconds) :
    0 ≤ (runTicksState st ticks).remainingMilliseconds := by
  induction ticks generalizing st with
  | nil => exact h
  | cons t ts ih =>
    rw [runTicksState]
    exact ih _ (get10msPerChannel_snd_remaining_nonneg st t.1 t.2 h)

theorem mkAudioStreamingPartState_remaining_nonneg (updates : List ChannelUpdate)
    (durationMs : Int) (endpointMapping : List (String × Int)) (isSingleChannel : Bool)
    (h : 0 ≤ durationMs) :
    0 ≤ (mkAudioStreamingPartState updates durationMs endpointMapping
      isSingleChannel).remainingMilliseconds := by
  unfold mkAudioStreamingPartState
  split_ifs <;> simp [h]

/-- C8: along any run of a part constructed with a non-negative reported
duration, `remainingMilliseconds` stays non-negative and never increases
across a tick; a successful tick decrements it by 10 (floored at 0) and
increments `frameIndex` by exactly 1; a terminal or zero-sample tick leaves
both fields unchanged. -/
theorem get10msPerChannel_monotonicity (updates : List ChannelUpdate) (durationMs : Int)
    (endpointMapping : List (String × Int)) (isSingleChannel : Bool)
    (ticks : List (ReadPcmResult × List Int)) (rr : ReadPcmResult) (pcm : List Int)
    (hdur : 0 ≤ durationMs) :
    0 ≤ (runTicksState (mkAudioStreamingPartState updates durationMs endpointMapping
        isSingleChannel) ticks).remainingMilliseconds ∧
    (((runTicksState (mkAudioStreamingPartState updates durationMs endpointMapping
        isSingleChannel) ticks).get10msPerChannel rr pcm).2).remainingMilliseconds ≤
      (runTicksState (mkAudioStreamingPartState updates durationMs endpointMapping
        isSingleChannel) ticks).remainingMilliseconds ∧
    0 ≤ (((runTicksState (mkAudioStreamingPartState updates durationMs endpointMapping
        isSingleChannel) ticks).get10msPerChannel rr pcm).2).remainingMilliseconds ∧
    ((runTicksState (mkAudioStreamingPartState updates durationMs endpointMapping
          isSingleChannel) ticks).didReadToEnd = false → 0 < rr.numSamples →
      (((runTicksState (mkAudioStreamingPartState updates durationMs endpointMapping
          isSingleChannel) ticks).get10msPerChannel rr pcm).2).frameIndex =
        (runTicksState (mkAudioStreamingPartState updates durationMs endpointMapping
          isSingleChannel) ticks).frameIndex + 1 ∧
      (((runTicksState (mkAudioStreamingPartState updates durationMs endpointMapping
          isSingleChannel) ticks).get10msPerChannel rr pcm).2).remainingMilliseconds =
        (if (runTicksState (mkAudioStreamingPartState updates durationMs endpointMapping
            isSingleChannel) ticks).remainingMilliseconds - 10 < 0 then 0
         else (runTicksState (mkAudioStreamingPartState updates durationMs endpointMapping
            isSingleChannel) ticks).remainingMilliseconds - 10)) ∧
    ((runTicksState (mkAudioStreamingPartState updates durationMs endpointMapping
          isSingleChannel) ticks).didReadToEnd = true ∨ rr.numSamples ≤ 0 →
      (((runTicksState (mkAudioStreamingPartState updates durationMs endpointMapping
          isSingleChannel) ticks).get10msPerChannel rr pcm).2).frameIndex =
        (runTicksState (mkAudioStreamingPartState updates durationMs endpointMapping
          isSingleChannel) ticks).frameIndex ∧
      (((runTicksState (mkAudioStreamingPartState updates durationMs endpointMapping
          isSingleChannel) ticks).get10msPerChannel rr pcm).2).remainingMilliseconds =
        (runTicksState (mkAudioStreamingPartState updates durationMs endpointMapping
          isSingleChannel) ticks).remainingMilliseconds) := by
  set st := runTicksState (mkAudioStreamingPartState updates durationMs endpointMapping
    isSingleChannel) ticks with hst
  have hnn : 0 ≤ st.remainingMilliseconds := by
    rw [hst]
    exact runTicksState_remaining_nonneg _ ticks
      (mkAudioStreamingPartState_remaining_nonneg updates durationMs endpointMapping
        isSingleChannel hdur)
  refine ⟨hnn, get10msPerChannel_snd_remaining_le st rr pcm hnn,
    get10msPerChannel_snd_remaining_nonneg st rr pcm hnn, ?_, ?_⟩
  · intro hlive hsamples
    rw [get10msPerChannel_success_snd st rr pcm hlive hsamples]
    exact ⟨rfl, rfl⟩
  · intro hcase
    rcases hcase with hE | h2
    · rw [get10msPerChannel_terminal st rr pcm hE]
      exact ⟨rfl, rfl⟩
    · rcases Bool.eq_false_or_eq_true st.didReadToEnd with hE | hE
      · rw [get10msPerChannel_terminal st rr pcm hE]
        exact ⟨rfl, rfl⟩
      · rw [get10msPerChannel_noSamples st rr pcm hE h2]
        exact ⟨rfl, rfl⟩

theorem get10msPerChannel_monotonicity_witness :
    0 ≤ (runTicksState (mkAudioStreamingPartState
        [{ frameIndex := 0, id := 0, ssrc := 100 }] 15 [] false)
        []).remainingMilliseconds ∧
    (((runTicksState (mkAudioStreamingPartState
        [{ frameIndex := 0, id := 0, ssrc := 100 }] 15 [] false)
        []).get10msPerChannel { numSamples := 1, numChannels := 1 } [7]).2).remainingMilliseconds ≤
      (runTicksState (mkAudioStreamingPartState
        [{ frameIndex := 0, id := 0, ssrc := 100 }] 15 [] false)
        []).remainingMilliseconds ∧
    0 ≤ (((runTicksState (mkAudioStreamingPartState
        [{ frameIndex := 0, id := 0, ssrc := 100 }] 15 [] false)
        []).get10msPerChannel { numSamples := 1, numChannels := 1 } [7]).2).remainingMilliseconds ∧
    ((((runTicksState (mkAudioStreamingPartState
        [{ frameIndex := 0, id := 0, ssrc := 100 }] 15 [] false)
        []).get10msPerChannel { numSamples := 1, numChannels := 1 } [7]).2).frameIndex =
      (runTicksState (mkAudioStreamingPartState
        [{ frameIndex := 0, id := 0, ssrc := 100 }] 15 [] false)
        []).frameIndex + 1 ∧
     (((runTicksState (mkAudioStreamingPartState
        [{ frameIndex := 0, id := 0, ssrc := 100 }] 15 [] false)
        []).get10msPerChannel { numSamples := 1, numChannels := 1 } [7]).2).remainingMilliseconds =
      (if (runTicksState (mkAudioStreamingPartState
          [{ frameIndex := 0, id := 0, ssrc := 100 }] 15 [] false)
          []).remainingMilliseconds - 10 < 0 then 0
       else (runTicksState (mkAudioStreamingPartState
          [{ frameIndex := 0, id := 0, ssrc := 100 }] 15 [] false)
          []).remainingMilliseconds - 10)) ∧
    ((((runTicksState (mkAudioStreamingPartState
        [{ frameIndex := 0, id := 0, ssrc := 100 }] 15 [] false)
        []).get10msPerChannel { numSamples := 0, numChannels := 1 } []).2).frameIndex =
      (runTicksState (mkAudioStreamingPartState
        [{ frameIndex := 0, id := 0, ssrc := 100 }] 15 [] false)
        []).frameIndex ∧
     (((runTicksState (mkAudioStreamingPartState
        [{ frameIndex := 0, id := 0, ssrc := 100 }] 15 [] false)
        []).get10msPerChannel { numSamples := 0, numChannels := 1 } []).2).remainingMilliseconds =
      (runTicksState (mkAudioStreamingPartState
        [{ frameIndex := 0, id := 0, ssrc := 100 }] 15 [] false)
        []).remainingMilliseconds) := by
  have h1 := get10msPerChannel_monotonicity [{ frameIndex := 0, id := 0, ssrc := 100 }] 15 []
    false [] { numSamples := 1, numChannels := 1 } [7] (by decide)
  have h2 := get10msPerChannel_monotonicity [{ frameIndex := 0, id := 0, ssrc := 100 }] 15 []
    false [] { numSamples := 0, numChannels := 1 } [] (by decide)
  exact ⟨h1.1, h1.2.1, h1.2.2.1, h1.2.2.2.1 (by decide) (by decide),
    h2.2.2.2.2 (Or.inr (by decide))⟩

/-- C9: a facade constructed from the empty blob reports zero remaining
milliseconds, the empty endpoint mapping, and an empty tick result with the
facade unchanged; a multiplexed part with zero parsed updates is terminal
at construction; a terminal state's tick is a no-op returning the empty
sequence; a live tick with a non-positive sample report returns the empty
sequence and marks the state terminal; and a terminal state is a fixed
point of every tick sequence. -/
theorem empty_and_terminal_degradation (updates : List ChannelUpdate) (durationMs : Int)
    (endpointMapping : List (String × Int)) (isSingleChannel : Bool)
    (rr : ReadPcmResult) (pcm : List Int) :
    ((mkAudioStreamingPart [] updates durationMs endpointMapping
        isSingleChannel).getRemainingMilliseconds = 0 ∧
      (mkAudioStreamingPart [] updates durationMs endpointMapping
        isSingleChannel).getEndpointMapping = [] ∧
      (mkAudioStreamingPart [] updates durationMs endpointMapping
          isSingleChannel).get10msPerChannel rr pcm =
        ([], mkAudioStreamingPart [] updates durationMs endpointMapping isSingleChannel)) ∧
    (mkAudioStreamingPartState [] durationMs endpointMapping false).didReadToEnd = true ∧
    (∀ st : AudioStreamingPartState, st.didReadToEnd = true →
      st.get10msPerChannel rr pcm = ([], st)) ∧
    (∀ st : AudioStreamingPartState, st.didReadToEnd = false → rr.numSamples ≤ 0 →
      (st.get10msPerChannel rr pcm).1 = [] ∧
      ((st.get10msPerChannel rr pcm).2).didReadToEnd = true) ∧
    (∀ (st : AudioStreamingPartState) (ticks : List (ReadPcmResult × List Int)),
      st.didReadToEnd = true → runTicksState st ticks = st) := by
  have hterm : ∀ (st : AudioStreamingPartState) (ticks : List (ReadPcmResult × List Int)),
      st.didReadToEnd = true → runTicksState st ticks = st := by
    intro st ticks hE
    induction ticks with
    | nil => rfl
    | cons t ts ih =>
      rw [runTicksState, get10msPerChannel_terminal st t.1 t.2 hE]
      exact ih
  refine ⟨⟨rfl, rfl, rfl⟩, rfl, ?_, ?_, hterm⟩
  · intro st hE
    exact get10msPerChannel_terminal st rr pcm hE
  · intro st hE h2
    rw [get10msPerChannel_noSamples st rr pcm hE h2]
    exact ⟨rfl, rfl⟩

theorem empty_and_terminal_degradation_witness :
    (mkAudioStreamingPart [] [] 0 [] false).getRemainingMilliseconds = 0 ∧
    (mkAudioStreamingPart [] [] 0 [] false).getEndpointMapping = [] ∧
    (mkAudioStreamingPart [] [] 0 [] false).get10msPerChannel
        { numSamples := 1, numChannels := 1 } [7] =
      ([], mkAudioStreamingPart [] [] 0 [] false) ∧
    (mkAudioStreamingPartState [] 0 [] false).didReadToEnd = true ∧
    (mkAudioStreamingPartState [] 0 [] false).get10msPerChannel
        { numSamples := 1, numChannels := 1 } [7] =
      ([], mkAudioStreamingPartState [] 0 [] false) ∧
    ((AudioStreamingPartState.get10msPerChannel
        { isSingleChannel := false, channelUpdates := [], endpointMapping := [],
          allSsrcs := [100], currentChannelMapping := [], frameIndex := 0,
          remainingMilliseconds := 50, didReadToEnd := false }
        { numSamples := 0, numChannels := 1 } []).1 = [] ∧
      ((AudioStreamingPartState.get10msPerChannel
        { isSingleChannel := false, channelUpdates := [], endpointMapping := [],
          allSsrcs := [100], currentChannelMapping := [], frameIndex := 0,
          remainingMilliseconds := 50, didReadToEnd := false }
        { numSamples := 0, numChannels := 1 } []).2).didReadToEnd = true) ∧
    runTicksState (mkAudioStreamingPartState [] 0 [] false)
      [({ numSamples := 1, numChannels := 1 }, [7])] =
      mkAudioStreamingPartState [] 0 [] false := by
  have h1 := empty_and_terminal_degradation [] 0 [] false
    { numSamples := 1, numChannels := 1 } [7]
  have h2 := empty_and_terminal_degradation [] 0 [] false
    { numSamples := 0, numChannels := 1 } []
  exact ⟨h1.1.1, h1.1.2.1, h1.1.2.2, h1.2.1,
    h1.2.2.1 (mkAudioStreamingPartState [] 0 [] false) h1.2.1,
    h2.2.2.2.1 _ rfl (by decide),
    h1.2.2.2.2 (mkAudioStreamingPartState [] 0 [] false)
      [({ numSamples := 1, numChannels := 1 }, [7])] h1.2.1⟩

/-- C1 is refuted on the de-interleaving bounds: a multiplexed part whose
single parsed update carries `channelId = -1` maps SSRC 100 to channel
index -1; on a successful tick reporting 2 samples on 1 channel the
de-interleave loop dereferences the decoded PCM buffer at index -1, below
the start of any buffer (and in particular outside a correctly sized
2-element buffer) — in the C++ this is an unchecked, out-of-bounds
`std::vector::operator[]` access. -/
theorem get10msPerChannel_out_of_bounds_access :
    ∃ idx ∈ get10msAccessedIndices
        (mkAudioStreamingPartState [{ frameIndex := 0, id := -1, ssrc := 100 }] 100 [] false)
        { numSamples := 2, numChannels := 1 },
      idx < 0 := by
  decide
